import Mathlib

/-!
Shallow embedding of `src/mldsutils/pipeline.py` (class `Pipeline`, helpers
`_fit_resample_one`, and the sklearn base-class machinery it relies on:
`Pipeline._iter` of the host framework and the `_final_estimator` property,
which normalizes a final step of `None` to the string `'passthrough'`).

Estimator objects are modelled by capability flags (the result of Python
`hasattr` checks) together with behaviour functions acting on an abstract
internal state `μ`: sklearn estimators are fitted by in-place mutation, which
we model as a state update that keeps all capability flags.  `X` is the type
of feature matrices, `Y` of label vectors, `P` of predictions, `V` of
fit-parameter values.  The memory/caching primitive is a host-framework
external collaborator; we model the default `memory=None` path, on which
`cloned_transformer = transformer` and the cached calls reduce to direct
calls (`check_memory(None)` yields a `Memory` with `location = None`).
-/

set_option maxHeartbeats 1000000

namespace MLDS

/-- An estimator object: capability flags model Python `hasattr` tests, the
behaviour functions model the corresponding method calls on the object's
mutable state.  `isPipelineInstance` models `isinstance(t, pipeline.Pipeline)`. -/
structure Est (X Y P V μ : Type) where
  state : μ
  isPipelineInstance : Bool
  hasFit : Bool
  hasTransform : Bool
  hasFitTransform : Bool
  hasFitResample : Bool
  hasFitPredict : Bool
  hasPredict : Bool
  hasPredictProba : Bool
  fitF : μ → X → Y → List (String × V) → μ
  fitTransformF : μ → X → Y → List (String × V) → X × μ
  fitResampleF : μ → X → Y → List (String × V) → X × Y × μ
  transformXF : μ → X → X
  transformXYF : μ → X → Y → X × Y
  transformResF : μ → X → X × Option (List Nat) × List Nat
  predictF : μ → X → P
  predictProbaF : μ → X → P
  fitPredictF : μ → X → Y → List (String × V) → μ × P

/-- A step entry of `self.steps`: Python `None`, the literal string
`'passthrough'`, or an estimator object. -/
inductive StepObj (X Y P V μ : Type) where
  | noneStep
  | passStep
  | est (e : Est X Y P V μ)

variable {X Y P V μ : Type}

/-- `hasattr(t, "fit")`: `None` and strings have no such attribute. -/
def StepObj.hasAttrFit : StepObj X Y P V μ → Bool
  | .est e => e.hasFit
  | _ => false

/-- `hasattr(t, "transform")`. -/
def StepObj.hasAttrTransform : StepObj X Y P V μ → Bool
  | .est e => e.hasTransform
  | _ => false

/-- `hasattr(t, "fit_transform")`. -/
def StepObj.hasAttrFitTransform : StepObj X Y P V μ → Bool
  | .est e => e.hasFitTransform
  | _ => false

/-- `hasattr(t, "fit_resample")`. -/
def StepObj.hasAttrFitResample : StepObj X Y P V μ → Bool
  | .est e => e.hasFitResample
  | _ => false

/-- `hasattr(t, "fit_predict")`. -/
def StepObj.hasAttrFitPredict : StepObj X Y P V μ → Bool
  | .est e => e.hasFitPredict
  | _ => false

/-- `hasattr(t, "predict")`. -/
def StepObj.hasAttrPredict : StepObj X Y P V μ → Bool
  | .est e => e.hasPredict
  | _ => false

/-- `hasattr(t, "predict_proba")`. -/
def StepObj.hasAttrPredictProba : StepObj X Y P V μ → Bool
  | .est e => e.hasPredictProba
  | _ => false

/-- Python exceptions raised by the pipeline code. -/
inductive PipeErr where
  | typeErr (msg : String)
  | valueErr (msg : String)
  | keyErr (msg : String)
  | attrErr (msg : String)
  | internalErr
deriving DecidableEq

/-- One intermediate step of `_validate_steps` (the loop body over
`transformers`, pipeline.py lines 145-185): `None`/`'passthrough'` are
skipped; a step lacking all of fit/fit_transform/fit_resample, or lacking
both transform and fit_resample, raises a TypeError; then an intermediate
that is a `pipeline.Pipeline` instance raises a TypeError.  The historical
check rejecting a step having both fit_resample and transform-style
capability is commented out in the source and hence absent here. -/
def interStepErr (t : StepObj X Y P V μ) : Option PipeErr :=
  match t with
  | .noneStep => none
  | .passStep => none
  | .est e =>
    if ¬(e.hasFit || e.hasFitTransform || e.hasFitResample) ||
        ¬(e.hasTransform || e.hasFitResample) then
      some (.typeErr "intermediate step")
    else if e.isPipelineInstance then
      some (.typeErr "nested pipeline")
    else none

/-- Final-step clause of `_validate_steps` (pipeline.py lines 188-197):
the last estimator may be `None` or `'passthrough'`, otherwise it must
have a `fit` attribute. -/
def finalStepErr (t : StepObj X Y P V μ) : Option PipeErr :=
  match t with
  | .noneStep => none
  | .passStep => none
  | .est e => if e.hasFit then none else some (.typeErr "last step")

/-- The first exception raised while looping over the intermediate steps. -/
def firstInterErr : List (StepObj X Y P V μ) → Option PipeErr
  | [] => none
  | t :: ts =>
    match interStepErr t with
    | some e => some e
    | none => firstInterErr ts

/-- `Pipeline._validate_steps` (pipeline.py lines 135-197).  `zip(*self.steps)`
on an empty list and `_validate_names` (host framework: rejects duplicate
names) both raise before the shape checks; we model name validation by its
uniqueness requirement, the part the claims rely on. -/
def validateSteps (steps : List (String × StepObj X Y P V μ)) : Option PipeErr :=
  if steps.isEmpty then some (.valueErr "empty steps")
  else if ¬ (steps.map Prod.fst).Nodup then some (.valueErr "duplicate names")
  else
    match firstInterErr (steps.dropLast.map Prod.snd) with
    | some e => some e
    | none =>
      match steps.getLast? with
      | some s => finalStepErr s.2
      | none => some .internalErr

/-- `_final_estimator` (host framework property): the object of the last
step, with `None` normalized to `'passthrough'`. -/
def finalEstimator (steps : List (String × StepObj X Y P V μ)) : StepObj X Y P V μ :=
  match steps.getLast? with
  | some (_, .noneStep) => .passStep
  | some (_, t) => t
  | none => .passStep

/-- Name of the last step, `self.steps[-1][0]`. -/
def lastStepName (steps : List (String × StepObj X Y P V μ)) : String :=
  match steps.getLast? with
  | some s => s.1
  | none => ""

/-- Filter of the host-framework `Pipeline._iter`: when
`filter_passthrough` is true, steps whose object is `None` or
`'passthrough'` are dropped. -/
def keepEntry (filterPassthrough : Bool) (t : StepObj X Y P V μ) : Bool :=
  if filterPassthrough then
    match t with
    | .noneStep => false
    | .passStep => false
    | .est _ => true
  else true

/-- Host-framework `Pipeline._iter(with_final, filter_passthrough)`:
enumerate `(idx, name, trans)` over `self.steps` (all steps, or all but the
last), optionally dropping `None`/`'passthrough'` entries. -/
def iterBase (steps : List (String × StepObj X Y P V μ))
    (withFinal filterPassthrough : Bool) : List (Nat × String × StepObj X Y P V μ) :=
  (steps.take (if withFinal then steps.length else steps.length - 1)).enum.filter
    fun z => keepEntry filterPassthrough z.2.2

/-- `Pipeline._iter` of mldsutils (pipeline.py lines 199-212): the
host-framework iteration, additionally dropping every step that has a
`fit_resample` attribute when `filter_resample` is true. -/
def iterM (steps : List (String × StepObj X Y P V μ))
    (withFinal filterPassthrough filterResample : Bool) :
    List (Nat × String × StepObj X Y P V μ) :=
  if filterResample then
    (iterBase steps withFinal filterPassthrough).filter fun z => !z.2.2.hasAttrFitResample
  else iterBase steps withFinal filterPassthrough

/-- Split a fit-parameter name at the first occurrence of the separator
`__`, following Python's `'__' in pname` test and `pname.split("__", 1)`. -/
def splitSepChars : List Char → Option (List Char × List Char)
  | '_' :: '_' :: rest => some ([], rest)
  | c :: rest => (splitSepChars rest).map fun q => (c :: q.1, q.2)
  | [] => none

/-- String-level first-separator split; `none` when the name holds no `__`. -/
def splitParamName (s : String) : Option (String × String) :=
  (splitSepChars s.toList).map fun q => (String.mk q.1, String.mk q.2)

/-- Keys of the `fit_params_steps` dict: names of all steps whose object is
not `None` (pipeline.py lines 225-227). -/
def paramKeys (steps : List (String × StepObj X Y P V μ)) : List String :=
  steps.filterMap fun s =>
    match s.2 with
    | .noneStep => none
    | _ => some s.1

/-- The `for pname, pval in fit_params.items()` loop of `_fit` (pipeline.py
lines 228-237): a name without `__` raises a ValueError naming the
parameter; a well-formed name is split at the first `__` and the value is
filed under the step named by the prefix — a prefix that is not a key of
`fit_params_steps` raises a KeyError.  The routed result keeps each
`(step, param, value)` triple in call order. -/
def routeFitParams (keys : List String) :
    List (String × V) → Except PipeErr (List (String × String × V))
  | [] => .ok []
  | (pname, pval) :: rest =>
    match splitParamName pname with
    | none => .error (.valueErr pname)
    | some (stepName, paramName) =>
      if stepName ∈ keys then
        match routeFitParams keys rest with
        | .ok l => .ok ((stepName, paramName, pval) :: l)
        | .error e => .error e
      else .error (.keyErr stepName)

/-- `fit_params_steps[name]` after routing: the parameters filed under a
given step name. -/
def paramsFor (routed : List (String × String × V)) (n : String) : List (String × V) :=
  routed.filterMap fun r => if r.1 = n then some (r.2.1, r.2.2) else none

/-- Host-framework `pipeline._fit_transform_one` (with `weight=None`, as
`_fit` always passes): use `fit_transform` when present, otherwise
`fit(X, y).transform(X)`; the returned transformer is the (in-place)
fitted object. -/
def fitTransformOne (e : Est X Y P V μ) (x : X) (y : Y) (ps : List (String × V)) :
    X × Est X Y P V μ :=
  if e.hasFitTransform then
    let r := e.fitTransformF e.state x y ps
    (r.1, { e with state := r.2 })
  else
    let st := e.fitF e.state x y ps
    (e.transformXF st x, { e with state := st })

/-- `_fit_resample_one` (pipeline.py lines 535-544): call
`sampler.fit_resample(X, y, **fit_params)` and return the resampled pair
together with the fitted sampler. -/
def fitResampleOne (e : Est X Y P V μ) (x : X) (y : Y) (ps : List (String × V)) :
    X × Y × Est X Y P V μ :=
  let r := e.fitResampleF e.state x y ps
  (r.1, r.2.1, { e with state := r.2.2 })

/-- Body of the `_fit` step loop for one entry (pipeline.py lines 238-276):
`None`/`'passthrough'` entries are skipped; a step with a transform-style
capability and no `fit_resample` goes through `_fit_transform_one`, updating
`X` only; a step with `fit_resample` goes through `_fit_resample_one`,
updating `X` and `y`; in both cases the fitted object replaces the entry.
A validated step always matches one branch; the fall-through (which in
Python would leave `fitted_transformer` unbound) is an internal error. -/
def fitOneStep (routed : List (String × String × V))
    (s : String × StepObj X Y P V μ) (x : X) (y : Y) :
    Except PipeErr ((String × StepObj X Y P V μ) × X × Y) :=
  match s.2 with
  | .noneStep => .ok (s, x, y)
  | .passStep => .ok (s, x, y)
  | .est e =>
    if (e.hasTransform || e.hasFitTransform) && !e.hasFitResample then
      let r := fitTransformOne e x y (paramsFor routed s.1)
      .ok ((s.1, .est r.2), r.1, y)
    else if e.hasFitResample then
      let r := fitResampleOne e x y (paramsFor routed s.1)
      .ok ((s.1, .est r.2.2), r.1, r.2.1)
    else .error .internalErr

/-- The `_fit` loop over `self._iter(with_final=False,
filter_passthrough=False, filter_resample=False)`, i.e. over all
intermediate entries in list order, threading `(X, y)` and rebuilding the
step list with each fitted step at its original index. -/
def fitInterSteps (routed : List (String × String × V)) :
    List (String × StepObj X Y P V μ) → X → Y →
    Except PipeErr (List (String × StepObj X Y P V μ) × X × Y)
  | [], x, y => .ok ([], x, y)
  | s :: rest, x, y =>
    match fitOneStep routed s x y with
    | .error e => .error e
    | .ok (s', x', y') =>
      match fitInterSteps routed rest x' y' with
      | .error e => .error e
      | .ok (rest', x'', y'') => .ok (s' :: rest', x'', y'')

/-- The pipeline object: the step list plus the prediction-time bookkeeping
attributes `to_keep_ind` and `outliers` (unset until first assigned). -/
structure Pipeline (X Y P V μ : Type) where
  steps : List (String × StepObj X Y P V μ)
  to_keep_ind : Option (List Nat) := none
  outliers : Option (List Nat) := none

/-- `Pipeline._fit` (pipeline.py lines 216-279): validate the steps, route
the fit parameters (rejecting names without `__`), run the intermediate
step loop, and return the updated pipeline, the threaded `(X, y)` and the
final step's fit parameters (`{}` when the final estimator is
`'passthrough'`). -/
def pipeFitRaw (p : Pipeline X Y P V μ) (x : X) (y : Y) (fps : List (String × V)) :
    Except PipeErr (Pipeline X Y P V μ × X × Y × List (String × V)) :=
  match validateSteps p.steps with
  | some e => .error e
  | none =>
    match routeFitParams (paramKeys p.steps) fps with
    | .error e => .error e
    | .ok routed =>
      match fitInterSteps routed p.steps.dropLast x y with
      | .error e => .error e
      | .ok (inits, xt, yt) =>
        match finalEstimator (inits ++ p.steps.drop (p.steps.length - 1)) with
        | .passStep =>
          .ok ({ p with steps := inits ++ p.steps.drop (p.steps.length - 1) }, xt, yt, [])
        | _ =>
          .ok ({ p with steps := inits ++ p.steps.drop (p.steps.length - 1) }, xt, yt,
               paramsFor routed (lastStepName (inits ++ p.steps.drop (p.steps.length - 1))))

/-- `Pipeline.fit` (pipeline.py lines 281-313): `_fit`, then — unless the
final estimator is `'passthrough'` — fit the final estimator on the
transformed data with the routed final-step parameters. -/
def pipeFit (p : Pipeline X Y P V μ) (x : X) (y : Y) (fps : List (String × V)) :
    Except PipeErr (Pipeline X Y P V μ) :=
  match pipeFitRaw p x y fps with
  | .error e => .error e
  | .ok (p', xt, yt, fps') =>
    match finalEstimator p'.steps with
    | .passStep => .ok p'
    | .est e =>
      if e.hasFit then
        .ok { p' with
              steps := p'.steps.dropLast ++
                [(lastStepName p'.steps,
                  .est { e with state := e.fitF e.state xt yt fps' })] }
      else .error (.attrErr "fit")
    | .noneStep => .error .internalErr

/-- `Pipeline.fit_transform` (pipeline.py lines 315-351): `_fit`, then on the
final estimator use `fit_transform` when present, otherwise
`fit(Xt, yt).transform(Xt)`; a `'passthrough'` final returns `Xt` as is. -/
def pipeFitTransform (p : Pipeline X Y P V μ) (x : X) (y : Y) (fps : List (String × V)) :
    Except PipeErr (Pipeline X Y P V μ × X) :=
  match pipeFitRaw p x y fps with
  | .error e => .error e
  | .ok (p', xt, yt, fps') =>
    match finalEstimator p'.steps with
    | .passStep => .ok (p', xt)
    | .est e =>
      if e.hasFitTransform then
        .ok ({ p' with
               steps := p'.steps.dropLast ++
                 [(lastStepName p'.steps,
                   .est { e with state := (e.fitTransformF e.state xt yt fps').2 })] },
             (e.fitTransformF e.state xt yt fps').1)
      else if e.hasFit then
        if e.hasTransform then
          .ok ({ p' with
                 steps := p'.steps.dropLast ++
                   [(lastStepName p'.steps,
                     .est { e with state := e.fitF e.state xt yt fps' })] },
               e.transformXF (e.fitF e.state xt yt fps') xt)
        else .error (.attrErr "transform")
      else .error (.attrErr "fit")
    | .noneStep => .error .internalErr

/-- The Python value returned by `Pipeline.fit_resample`: `Xt` alone on a
`'passthrough'` final, a resampled `(Xt, yt)` pair when the final estimator
has `fit_resample`, and Python `None` otherwise (the method body ends
without a `return`). -/
inductive ResampleOut (X Y : Type) where
  | xOnly (x : X)
  | pair (x : X) (y : Y)
  | pyNone
deriving DecidableEq

/-- `Pipeline.fit_resample` (pipeline.py lines 353-390): `_fit`, then return
`Xt` for a `'passthrough'` final, `last_step.fit_resample(Xt, yt)` when the
final estimator has `fit_resample`, and fall off the end (Python `None`)
otherwise. -/
def pipeFitResample (p : Pipeline X Y P V μ) (x : X) (y : Y) (fps : List (String × V)) :
    Except PipeErr (Pipeline X Y P V μ × ResampleOut X Y) :=
  match pipeFitRaw p x y fps with
  | .error e => .error e
  | .ok (p', xt, yt, fps') =>
    match finalEstimator p'.steps with
    | .passStep => .ok (p', .xOnly xt)
    | .est e =>
      if e.hasFitResample then
        .ok ({ p' with
               steps := p'.steps.dropLast ++
                 [(lastStepName p'.steps,
                   .est { e with state := (e.fitResampleF e.state xt yt fps').2.2 })] },
             .pair (e.fitResampleF e.state xt yt fps').1
               (e.fitResampleF e.state xt yt fps').2.1)
      else .ok (p', .pyNone)
    | .noneStep => .error .internalErr

/-- `Pipeline.fit_predict` (pipeline.py lines 392-424), guarded by
`if_delegate_has_method(delegate="_final_estimator")`: accessing the method
raises an AttributeError unless the final estimator has `fit_predict`;
otherwise `_fit` then `self.steps[-1][-1].fit_predict(Xt, yt, **fp)`. -/
def pipeFitPredict (p : Pipeline X Y P V μ) (x : X) (y : Y) (fps : List (String × V)) :
    Except PipeErr (Pipeline X Y P V μ × P) :=
  if !(finalEstimator p.steps).hasAttrFitPredict then .error (.attrErr "fit_predict")
  else
    match pipeFitRaw p x y fps with
    | .error e => .error e
    | .ok (p', xt, yt, fps') =>
      match finalEstimator p'.steps with
      | .est e =>
        if e.hasFitPredict then
          .ok ({ p' with
                 steps := p'.steps.dropLast ++
                   [(lastStepName p'.steps,
                     .est { e with state := (e.fitPredictF e.state xt yt fps').1 })] },
               (e.fitPredictF e.state xt yt fps').2)
        else .error (.attrErr "fit_predict")
      | _ => .error (.attrErr "fit_predict")

/-- Loop body of `Pipeline.predict`/`predict_proba` (pipeline.py lines
450-458 and 485-493) for one iterated step, acting on the feature thread and
the `(to_keep_ind, outliers)` bookkeeping: a step with `fit_resample` runs
its three-valued `transform(Xt)` and overwrites the bookkeeping only when
the returned kept-index value is not `None`; any other step runs plain
`transform(Xt)` and leaves the bookkeeping alone. -/
def predictUpd (z : X × Option (List Nat) × Option (List Nat)) (t : StepObj X Y P V μ) :
    X × Option (List Nat) × Option (List Nat) :=
  match t with
  | .est e =>
    if e.hasFitResample then
      let r := e.transformResF e.state z.1
      match r.2.1 with
      | some k => (r.1, some k, some r.2.2)
      | none => (r.1, z.2.1, z.2.2)
    else (e.transformXF e.state z.1, z.2.1, z.2.2)
  | _ => z

/-- The feature/bookkeeping state after the predict-time loop over
`self._iter(with_final=False, filter_resample=False)` (passthrough entries
filtered by the host-framework default). -/
def predictThread (p : Pipeline X Y P V μ) (x : X) :
    X × Option (List Nat) × Option (List Nat) :=
  (iterM p.steps false true false).foldl (fun a t => predictUpd a t.2.2)
    (x, p.to_keep_ind, p.outliers)

/-- `Pipeline.predict` (pipeline.py lines 426-459), guarded by
`if_delegate_has_method('_final_estimator')`: run the predict-time loop,
record the bookkeeping on the instance, and call the final step's
`predict` on the filtered features. -/
def pipePredict (p : Pipeline X Y P V μ) (x : X) :
    Except PipeErr (Pipeline X Y P V μ × P) :=
  if !(finalEstimator p.steps).hasAttrPredict then .error (.attrErr "predict")
  else
    match finalEstimator p.steps with
    | .est e =>
      if e.hasPredict then
        .ok ({ p with
                to_keep_ind := (predictThread p x).2.1,
                outliers := (predictThread p x).2.2 },
             e.predictF e.state (predictThread p x).1)
      else .error (.attrErr "predict")
    | _ => .error (.attrErr "predict")

/-- `Pipeline.predict_proba` (pipeline.py lines 461-494): identical loop,
final call `predict_proba`. -/
def pipePredictProba (p : Pipeline X Y P V μ) (x : X) :
    Except PipeErr (Pipeline X Y P V μ × P) :=
  if !(finalEstimator p.steps).hasAttrPredictProba then .error (.attrErr "predict_proba")
  else
    match finalEstimator p.steps with
    | .est e =>
      if e.hasPredictProba then
        .ok ({ p with
                to_keep_ind := (predictThread p x).2.1,
                outliers := (predictThread p x).2.2 },
             e.predictProbaF e.state (predictThread p x).1)
      else .error (.attrErr "predict_proba")
    | _ => .error (.attrErr "predict_proba")

/-- Whether accessing the `transform` property succeeds (pipeline.py lines
496-517): unless the final estimator is `'passthrough'`, the property body
touches `self._final_estimator.transform`, raising an AttributeError when
the attribute is missing. -/
def transformExposed (p : Pipeline X Y P V μ) : Bool :=
  match finalEstimator p.steps with
  | .passStep => true
  | .noneStep => true
  | .est e => e.hasTransform

/-- Application of one iterated step inside `_transform`:
`Xt, y = transform.transform(Xt, y)`. -/
def stepXY (t : StepObj X Y P V μ) (a : X × Y) : X × Y :=
  match t with
  | .est e => e.transformXYF e.state a.1 a.2
  | _ => a

/-- `Pipeline._transform` (pipeline.py lines 519-524): fold the two-argument
`transform` over `self._iter()` — all steps including the final one, with
passthrough entries and every `fit_resample`-capable step filtered out. -/
def pipeTransformRun (p : Pipeline X Y P V μ) (x : X) (y : Y) : X × Y :=
  (iterM p.steps true true true).foldl (fun a t => stepXY t.2.2 a) (x, y)

/-- The `transform` property followed by the `_transform` call. -/
def pipeTransform (p : Pipeline X Y P V μ) (x : X) (y : Y) :
    Except PipeErr (X × Y) :=
  if transformExposed p then .ok (pipeTransformRun p x y)
  else .error (.attrErr "transform")

/-- The seven public methods of the claim on method exposure. -/
inductive Meth where
  | mFit
  | mFitTransform
  | mFitResample
  | mFitPredict
  | mPredict
  | mPredictProba
  | mTransform
deriving DecidableEq

/-- Whether a public method is exposed (accessible without AttributeError)
on the pipeline: `fit`, `fit_transform` and `fit_resample` are plain
methods of the class, hence always present; `fit_predict`, `predict` and
`predict_proba` are wrapped in `if_delegate_has_method('_final_estimator')`;
the `transform` property raises unless the final estimator is
`'passthrough'` or has `transform`. -/
def exposes (p : Pipeline X Y P V μ) : Meth → Bool
  | .mFit => true
  | .mFitTransform => true
  | .mFitResample => true
  | .mFitPredict => (finalEstimator p.steps).hasAttrFitPredict
  | .mPredict => (finalEstimator p.steps).hasAttrPredict
  | .mPredictProba => (finalEstimator p.steps).hasAttrPredictProba
  | .mTransform => transformExposed p

/-- The capability of the final step corresponding to each public method —
the exposure rule asserted by the spec sentence under scrutiny. -/
def finalSupports (p : Pipeline X Y P V μ) : Meth → Bool
  | .mFit => (finalEstimator p.steps).hasAttrFit
  | .mFitTransform => (finalEstimator p.steps).hasAttrFitTransform
  | .mFitResample => (finalEstimator p.steps).hasAttrFitResample
  | .mFitPredict => (finalEstimator p.steps).hasAttrFitPredict
  | .mPredict => (finalEstimator p.steps).hasAttrPredict
  | .mPredictProba => (finalEstimator p.steps).hasAttrPredictProba
  | .mTransform => (finalEstimator p.steps).hasAttrTransform

/-- Modelled from the spec, for the refinement claim on baseline behaviour:
the baseline (non-resampling) host-framework pipeline fit loop threads `X`
through each non-`None`/non-passthrough step's fit-transform in order and
leaves `y` unchanged, rebuilding the step list with the fitted steps. -/
def baselineFitInter (routed : List (String × String × V)) :
    List (String × StepObj X Y P V μ) → X → Y →
    List (String × StepObj X Y P V μ) × X
  | [], x, _ => ([], x)
  | s :: rest, x, y =>
    match s.2 with
    | .est e =>
      let r := fitTransformOne e x y (paramsFor routed s.1)
      let w := baselineFitInter routed rest r.1 y
      ((s.1, .est r.2) :: w.1, w.2)
    | _ =>
      let w := baselineFitInter routed rest x y
      (s :: w.1, w.2)

/-- Modelled from the spec: the baseline pipeline `fit` — validate, route
the fit parameters, thread `X` through the intermediate fit-transforms with
`y` unchanged, then fit the final estimator on the transformed data. -/
def baselineFit (p : Pipeline X Y P V μ) (x : X) (y : Y) (fps : List (String × V)) :
    Except PipeErr (Pipeline X Y P V μ) :=
  match validateSteps p.steps with
  | some e => .error e
  | none =>
    match routeFitParams (paramKeys p.steps) fps with
    | .error e => .error e
    | .ok routed =>
      match finalEstimator ((baselineFitInter routed p.steps.dropLast x y).1 ++
          p.steps.drop (p.steps.length - 1)) with
      | .passStep =>
        .ok { p with
              steps := (baselineFitInter routed p.steps.dropLast x y).1 ++
                p.steps.drop (p.steps.length - 1) }
      | .est e =>
        if e.hasFit then
          .ok { p with
                steps := ((baselineFitInter routed p.steps.dropLast x y).1 ++
                    p.steps.drop (p.steps.length - 1)).dropLast ++
                  [(lastStepName ((baselineFitInter routed p.steps.dropLast x y).1 ++
                      p.steps.drop (p.steps.length - 1)),
                    .est { e with
                           state := e.fitF e.state
                             (baselineFitInter routed p.steps.dropLast x y).2 y
                             (paramsFor routed
                               (lastStepName ((baselineFitInter routed p.steps.dropLast x y).1 ++
                                 p.steps.drop (p.steps.length - 1)))) })] }
        else .error (.attrErr "fit")
      | .noneStep => .error .internalErr

/-- Modelled from the spec: the baseline pipeline `predict` — each
non-passthrough intermediate step's plain `transform` is folded over the
features, then the final estimator predicts; no bookkeeping exists, so the
pipeline instance is returned unchanged. -/
def baselinePredict (p : Pipeline X Y P V μ) (x : X) :
    Except PipeErr (Pipeline X Y P V μ × P) :=
  if !(finalEstimator p.steps).hasAttrPredict then .error (.attrErr "predict")
  else
    let xt := (iterBase p.steps false true).foldl
      (fun a z =>
        match z.2.2 with
        | .est e => e.transformXF e.state a
        | _ => a) x
    match finalEstimator p.steps with
    | .est e =>
      if e.hasPredict then .ok (p, e.predictF e.state xt)
      else .error (.attrErr "predict")
    | _ => .error (.attrErr "predict")

/-- Modelled from the spec: the baseline pipeline `transform` — the
two-argument step transform folded over all non-passthrough steps, final
step included, with the same exposure rule as the property. -/
def baselineTransform (p : Pipeline X Y P V μ) (x : X) (y : Y) :
    Except PipeErr (X × Y) :=
  if transformExposed p then
    .ok ((iterBase p.steps true true).foldl (fun a t => stepXY t.2.2 a) (x, y))
  else .error (.attrErr "transform")

/-- Concrete estimator over `Nat` data used by witnesses: the seven flags
choose the capabilities, the behaviours are simple arithmetic. -/
def mkEst (fit tr ft fr fp pr pp : Bool) : Est Nat Nat Nat Nat Nat where
  state := 0
  isPipelineInstance := false
  hasFit := fit
  hasTransform := tr
  hasFitTransform := ft
  hasFitResample := fr
  hasFitPredict := fp
  hasPredict := pr
  hasPredictProba := pp
  fitF := fun s _ _ _ => s + 1
  fitTransformF := fun s x _ _ => (x + 1, s + 1)
  fitResampleF := fun s x y _ => (x + 2, y + 2, s + 1)
  transformXF := fun _ x => x + 1
  transformXYF := fun _ x y => (x + 1, y)
  transformResF := fun _ x => (x + 3, some [x], [x + 1])
  predictF := fun _ x => x * 10
  predictProbaF := fun _ x => x * 100
  fitPredictF := fun s _ _ _ => (s + 1, 7)

/-- A resample-capable step whose predict-time `transform` returns `None`
for the kept indices (the repository's convention when nothing is removed). -/
def resNoneEst : Est Nat Nat Nat Nat Nat :=
  { mkEst true true false true false false false with
    transformResF := fun _ x => (x + 3, none, []) }

/-- Whether an `Except` result is a success. -/
def exOk {ε α : Type} : Except ε α → Bool
  | .ok _ => true
  | .error _ => false

/-- Whether a step entry is the literal `'passthrough'`. -/
def StepObj.isPass : StepObj X Y P V μ → Bool
  | .passStep => true
  | _ => false

/-- Boolean characterization of an intermediate step accepted by
`_validate_steps`: fit-like and transform-or-resample capability, and not a
nested pipeline (`None`/`'passthrough'` always pass). -/
def interShapeOk (t : StepObj X Y P V μ) : Bool :=
  match t with
  | .est e =>
    (e.hasFit || e.hasFitTransform || e.hasFitResample) &&
      (e.hasTransform || e.hasFitResample) && !e.isPipelineInstance
  | _ => true

/-- Boolean characterization of an accepted final step: `None`,
`'passthrough'`, or an estimator with `fit`. -/
def finalShapeOk (t : StepObj X Y P V μ) : Bool :=
  match t with
  | .est e => e.hasFit
  | _ => true

/-- Two estimators with the same capability flags (a fitted clone keeps
every capability of the original, only the internal state changes). -/
def sameCaps (a b : Est X Y P V μ) : Prop :=
  a.isPipelineInstance = b.isPipelineInstance ∧ a.hasFit = b.hasFit ∧
  a.hasTransform = b.hasTransform ∧ a.hasFitTransform = b.hasFitTransform ∧
  a.hasFitResample = b.hasFitResample ∧ a.hasFitPredict = b.hasFitPredict ∧
  a.hasPredict = b.hasPredict ∧ a.hasPredictProba = b.hasPredictProba

lemma interStepErr_eq_none_iff (t : StepObj X Y P V μ) :
    interStepErr t = none ↔ interShapeOk t = true := by
  cases t with
  | noneStep => simp [interStepErr, interShapeOk]
  | passStep => simp [interStepErr, interShapeOk]
  | est e =>
    simp only [interStepErr, interShapeOk]
    by_cases h1 : (e.hasFit || e.hasFitTransform || e.hasFitResample) = true <;>
      by_cases h2 : (e.hasTransform || e.hasFitResample) = true <;>
        by_cases h3 : e.isPipelineInstance = true <;>
          simp_all

lemma interStepErr_typeErr {t : StepObj X Y P V μ} {er : PipeErr}
    (h : interStepErr t = some er) : ∃ m, er = PipeErr.typeErr m := by
  cases t with
  | noneStep => simp [interStepErr] at h
  | passStep => simp [interStepErr] at h
  | est e =>
    simp only [interStepErr] at h
    split at h
    · exact ⟨_, (Option.some_injective _ h).symm⟩
    · split at h
      · exact ⟨_, (Option.some_injective _ h).symm⟩
      · simp at h

lemma finalStepErr_eq_none_iff (t : StepObj X Y P V μ) :
    finalStepErr t = none ↔ finalShapeOk t = true := by
  cases t with
  | noneStep => simp [finalStepErr, finalShapeOk]
  | passStep => simp [finalStepErr, finalShapeOk]
  | est e =>
    simp only [finalStepErr, finalShapeOk]
    by_cases h : e.hasFit = true <;> simp_all

lemma finalStepErr_typeErr {t : StepObj X Y P V μ} {er : PipeErr}
    (h : finalStepErr t = some er) : ∃ m, er = PipeErr.typeErr m := by
  cases t with
  | noneStep => simp [finalStepErr] at h
  | passStep => simp [finalStepErr] at h
  | est e =>
    simp only [finalStepErr] at h
    split at h
    · simp at h
    · exact ⟨_, (Option.some_injective _ h).symm⟩

lemma firstInterErr_eq_none_iff (l : List (StepObj X Y P V μ)) :
    firstInterErr l = none ↔ ∀ t ∈ l, interStepErr t = none := by
  induction l with
  | nil => simp [firstInterErr]
  | cons t ts ih =>
    simp only [firstInterErr]
    cases h : interStepErr t with
    | some e => simp [h]
    | none => simp [h, ih]

lemma firstInterErr_mem {l : List (StepObj X Y P V μ)} {er : PipeErr}
    (h : firstInterErr l = some er) : ∃ t ∈ l, interStepErr t = some er := by
  induction l with
  | nil => simp [firstInterErr] at h
  | cons t ts ih =>
    simp only [firstInterErr] at h
    cases ht : interStepErr t with
    | some e =>
      rw [ht] at h
      exact ⟨t, by simp, by rw [ht, Option.some_injective _ h]⟩
    | none =>
      rw [ht] at h
      obtain ⟨u, hu, hue⟩ := ih h
      exact ⟨u, by simp [hu], hue⟩

lemma isEmpty_false_of_ne_nil {α : Type} {l : List α} (h : l ≠ []) :
    l.isEmpty = false := by
  cases l with
  | nil => exact absurd rfl h
  | cons a t => rfl

/-- `validateSteps` succeeds exactly when every intermediate shape and the
final shape are accepted (given nonempty steps with distinct names). -/
lemma validateSteps_eq_none_iff {steps : List (String × StepObj X Y P V μ)}
    (hne : steps ≠ []) (hnames : (steps.map Prod.fst).Nodup) :
    validateSteps steps = none ↔
      ((∀ t ∈ steps.dropLast.map Prod.snd, interShapeOk t = true) ∧
       finalShapeOk (steps.getLastD ("", StepObj.noneStep)).2 = true) := by
  have hlast : steps.getLast? = some (steps.getLastD ("", StepObj.noneStep)) := by
    cases h : steps.getLast? with
    | none => exact absurd (List.getLast?_eq_none_iff.mp h) hne
    | some s => simp [List.getLastD_eq_getLast?, h]
  simp only [validateSteps, isEmpty_false_of_ne_nil hne, Bool.false_eq_true,
    if_false, hnames, not_true, if_neg (not_not_intro hnames)]
  cases hf : firstInterErr (steps.dropLast.map Prod.snd) with
  | some e =>
    simp only []
    constructor
    · intro h; simp at h
    · rintro ⟨hall, -⟩
      obtain ⟨t, ht, hte⟩ := firstInterErr_mem hf
      rw [(interStepErr_eq_none_iff t).mpr (hall t ht)] at hte
      simp at hte
  | none =>
    rw [hlast]
    simp only [finalStepErr_eq_none_iff]
    constructor
    · intro h
      exact ⟨fun t ht => (interStepErr_eq_none_iff t).mp
          ((firstInterErr_eq_none_iff _).mp hf t ht), h⟩
    · intro h; exact h.2

/-- Any error raised by `validateSteps` on a nonempty step list with
distinct names is a TypeError. -/
lemma validateSteps_typeErr {steps : List (String × StepObj X Y P V μ)} {er : PipeErr}
    (hne : steps ≠ []) (hnames : (steps.map Prod.fst).Nodup)
    (h : validateSteps steps = some er) : ∃ m, er = PipeErr.typeErr m := by
  simp only [validateSteps, isEmpty_false_of_ne_nil hne, Bool.false_eq_true,
    if_false, if_neg (not_not_intro hnames)] at h
  cases hf : firstInterErr (steps.dropLast.map Prod.snd) with
  | some e =>
    rw [hf] at h
    obtain ⟨t, -, hte⟩ := firstInterErr_mem hf
    obtain ⟨m, hm⟩ := interStepErr_typeErr hte
    exact ⟨m, by rw [← Option.some_injective _ h, hm]⟩
  | none =>
    rw [hf] at h
    cases hl : steps.getLast? with
    | none => exact absurd (List.getLast?_eq_none_iff.mp hl) hne
    | some s =>
      rw [hl] at h
      exact finalStepErr_typeErr h

/-- C8: step validation raises a TypeError for exactly the bad step shapes —
an intermediate estimator lacking fit-like capability (fit, fit_transform or
fit_resample) or lacking transform/resample capability (transform or
fit_resample), an intermediate that is a nested Pipeline, or a final step
that is neither `None` nor `'passthrough'` and lacks `fit`; validation
passes otherwise, and every validation error about step shapes is a
TypeError. -/
theorem c8_validation_exact {X Y P V μ : Type}
    (steps : List (String × StepObj X Y P V μ))
    (hne : steps ≠ []) (hnames : (steps.map Prod.fst).Nodup) :
    (validateSteps steps = none ↔
      ((∀ t ∈ steps.dropLast.map Prod.snd, interShapeOk t = true) ∧
       finalShapeOk (steps.getLastD ("", StepObj.noneStep)).2 = true)) ∧
    (∀ er, validateSteps steps = some er → ∃ m, er = PipeErr.typeErr m) :=
  ⟨validateSteps_eq_none_iff hne hnames,
   fun _ h => validateSteps_typeErr hne hnames h⟩

/-- Steps of a well-formed two-step pipeline used to witness `c8_validation_exact`. -/
def c8steps : List (String × StepObj Nat Nat Nat Nat Nat) :=
  [("t", .est (mkEst true true false false false false false)),
   ("f", .est (mkEst true false false false false true false))]

/-- Witness for `c8_validation_exact` at a concrete step list. -/
theorem c8_witness :
    c8steps ≠ [] ∧ (c8steps.map Prod.fst).Nodup ∧ validateSteps c8steps = none :=
  ⟨List.cons_ne_nil _ _, by decide,
   ((c8_validation_exact c8steps (List.cons_ne_nil _ _) (by decide)).1).mpr
     (by constructor
         · intro t ht
           simp only [c8steps, List.dropLast, List.map] at ht
           simp only [List.mem_singleton] at ht
           subst ht
           decide
         · decide)⟩

/-- A plain transformer step: `fit` and `transform`, no `fit_resample`. -/
def plainTransformer : Est Nat Nat Nat Nat Nat :=
  mkEst true true false false false false false

/-- A final estimator with `fit`, `predict` and `predict_proba` only. -/
def finalPredictor : Est Nat Nat Nat Nat Nat :=
  mkEst true false false false false true true

/-- A step exposing both transform capability and `fit_resample`. -/
def bothCapEst : Est Nat Nat Nat Nat Nat :=
  mkEst true true false true false false false

/-- A two-step pipeline whose intermediate step has both transform and
resample capability. -/
def bothCapPipe : Pipeline Nat Nat Nat Nat Nat :=
  { steps := [("s", .est bothCapEst), ("f", .est finalPredictor)] }

/-- Counterexample to C1: a pipeline whose intermediate step exposes both
`transform` and `fit_resample` passes `_validate_steps` and `fit` completes
without any error — the both-capability rejection is commented out in the
source. -/
theorem c1_both_capability_accepted_cex :
    bothCapEst.hasTransform = true ∧ bothCapEst.hasFitResample = true ∧
    validateSteps bothCapPipe.steps = none ∧
    exOk (pipeFit bothCapPipe 5 6 []) = true :=
  ⟨by decide, by decide, by decide, by rfl⟩

/-- C1 (amended): an intermediate step exposing both transform-style and
resample capability is accepted by validation, and `_fit` dispatches it to
the `fit_resample` branch (the transform branch requires the absence of
`fit_resample`), updating both `X` and `y`. -/
theorem c1_both_treated_as_resampler {X Y P V μ : Type}
    (e : Est X Y P V μ) (routed : List (String × String × V)) (nm : String)
    (x : X) (y : Y)
    (htrans : (e.hasTransform || e.hasFitTransform) = true)
    (hres : e.hasFitResample = true)
    (hpipe : e.isPipelineInstance = false) :
    interStepErr (StepObj.est e) = none ∧
    fitOneStep routed (nm, StepObj.est e) x y =
      .ok ((nm, StepObj.est (fitResampleOne e x y (paramsFor routed nm)).2.2),
           (fitResampleOne e x y (paramsFor routed nm)).1,
           (fitResampleOne e x y (paramsFor routed nm)).2.1) := by
  constructor
  · rw [interStepErr_eq_none_iff]
    simp only [interShapeOk, hres, hpipe]
    simp
  · simp only [fitOneStep, hres, Bool.not_true, Bool.and_false, Bool.false_eq_true,
      if_false, if_true]

/-- Witness for `c1_both_treated_as_resampler` at a concrete estimator. -/
theorem c1_witness :
    (bothCapEst.hasTransform || bothCapEst.hasFitTransform) = true ∧
    bothCapEst.hasFitResample = true ∧
    interStepErr (StepObj.est bothCapEst) = none ∧
    fitOneStep ([] : List (String × String × Nat)) ("s", StepObj.est bothCapEst) 3 4 =
      .ok (("s", StepObj.est (fitResampleOne bothCapEst 3 4 (paramsFor [] "s")).2.2),
           (fitResampleOne bothCapEst 3 4 (paramsFor [] "s")).1,
           (fitResampleOne bothCapEst 3 4 (paramsFor [] "s")).2.1) := by
  refine ⟨by decide, by decide, ?_, ?_⟩
  · exact (c1_both_treated_as_resampler bothCapEst [] "s" 3 4 (by decide) (by decide)
      (by decide)).1
  · exact (c1_both_treated_as_resampler bothCapEst [] "s" 3 4 (by decide) (by decide)
      (by decide)).2

lemma fitOneStep_fst {routed : List (String × String × V)}
    {s : String × StepObj X Y P V μ} {x : X} {y : Y}
    {w : (String × StepObj X Y P V μ) × X × Y}
    (h : fitOneStep routed s x y = .ok w) : w.1.1 = s.1 := by
  rcases s with ⟨nm, t⟩
  cases t with
  | noneStep =>
    simp only [fitOneStep] at h
    injection h with h1
    rw [← h1]
  | passStep =>
    simp only [fitOneStep] at h
    injection h with h1
    rw [← h1]
  | est e =>
    simp only [fitOneStep] at h
    split at h
    · injection h with h1; rw [← h1]
    · split at h
      · injection h with h1; rw [← h1]
      · exact Except.noConfusion h

lemma fitInterSteps_shape (routed : List (String × String × V)) :
    ∀ (l : List (String × StepObj X Y P V μ)) (x : X) (y : Y)
      (w : List (String × StepObj X Y P V μ) × X × Y),
      fitInterSteps routed l x y = .ok w →
      w.1.map Prod.fst = l.map Prod.fst ∧
      ∀ i (h : i < l.length) (h' : i < w.1.length),
        ∃ xi yi wi, fitOneStep routed (l.get ⟨i, h⟩) xi yi = .ok wi ∧
          wi.1 = w.1.get ⟨i, h'⟩ := by
  intro l
  induction l with
  | nil =>
    intro x y w h
    simp only [fitInterSteps] at h
    injection h with h1
    refine ⟨by rw [← h1], ?_⟩
    intro i hi
    exact absurd hi (Nat.not_lt_zero i)
  | cons s rest ih =>
    intro x y w h
    simp only [fitInterSteps] at h
    split at h
    · exact Except.noConfusion h
    · rename_i s' x' y' h1
      split at h
      · exact Except.noConfusion h
      · rename_i rest' x'' y'' h2
        injection h with h3
        obtain ⟨hmap, hidx⟩ := ih x' y' (rest', x'', y'') h2
        subst h3
        constructor
        · have hs : s'.1 = s.1 := fitOneStep_fst h1
          simp only [List.map_cons, hmap, hs]
        · intro i hi hi'
          cases i with
          | zero => exact ⟨x, y, (s', x', y'), h1, rfl⟩
          | succ j =>
            exact hidx j (Nat.lt_of_succ_lt_succ hi) (Nat.lt_of_succ_lt_succ hi')

lemma fitTransformOne_caps (e : Est X Y P V μ) (x : X) (y : Y)
    (ps : List (String × V)) : sameCaps (fitTransformOne e x y ps).2 e := by
  unfold fitTransformOne
  split <;> exact ⟨rfl, rfl, rfl, rfl, rfl, rfl, rfl, rfl⟩

lemma fitResampleOne_caps (e : Est X Y P V μ) (x : X) (y : Y)
    (ps : List (String × V)) : sameCaps (fitResampleOne e x y ps).2.2 e :=
  ⟨rfl, rfl, rfl, rfl, rfl, rfl, rfl, rfl⟩

/-- C3: in the `_fit` loop, a transform-capable step without `fit_resample`
updates the features only and passes `y` through unchanged, a step with
`fit_resample` updates both features and labels; the fitted object keeps all
capability flags, and over the whole loop each entry of the rebuilt step
list keeps its name and is the output of fitting the original entry at the
same index. -/
theorem c3_fit_step_effects {X Y P V μ : Type} (routed : List (String × String × V)) :
    (∀ (nm : String) (e : Est X Y P V μ) (x : X) (y : Y),
        (e.hasTransform || e.hasFitTransform) = true → e.hasFitResample = false →
        fitOneStep routed (nm, StepObj.est e) x y =
          .ok ((nm, StepObj.est (fitTransformOne e x y (paramsFor routed nm)).2),
               (fitTransformOne e x y (paramsFor routed nm)).1, y)) ∧
    (∀ (nm : String) (e : Est X Y P V μ) (x : X) (y : Y),
        e.hasFitResample = true →
        fitOneStep routed (nm, StepObj.est e) x y =
          .ok ((nm, StepObj.est (fitResampleOne e x y (paramsFor routed nm)).2.2),
               (fitResampleOne e x y (paramsFor routed nm)).1,
               (fitResampleOne e x y (paramsFor routed nm)).2.1)) ∧
    (∀ (e : Est X Y P V μ) (x : X) (y : Y) (ps : List (String × V)),
        sameCaps (fitTransformOne e x y ps).2 e ∧
        sameCaps (fitResampleOne e x y ps).2.2 e) ∧
    (∀ (l : List (String × StepObj X Y P V μ)) (x : X) (y : Y)
        (w : List (String × StepObj X Y P V μ) × X × Y),
        fitInterSteps routed l x y = .ok w →
        w.1.map Prod.fst = l.map Prod.fst ∧
        ∀ i (h : i < l.length) (h' : i < w.1.length),
          ∃ xi yi wi, fitOneStep routed (l.get ⟨i, h⟩) xi yi = .ok wi ∧
            wi.1 = w.1.get ⟨i, h'⟩) := by
  refine ⟨?_, ?_, ?_, fitInterSteps_shape routed⟩
  · intro nm e x y htrans hres
    simp only [fitOneStep, htrans, hres, Bool.not_false, Bool.and_true, if_true]
  · intro nm e x y hres
    simp only [fitOneStep, hres, Bool.not_true, Bool.and_false, Bool.false_eq_true,
      if_false, if_true]
  · intro e x y ps
    exact ⟨fitTransformOne_caps e x y ps, fitResampleOne_caps e x y ps⟩

/-- Witness for `c3_fit_step_effects` at a concrete transformer step. -/
theorem c3_witness :
    (plainTransformer.hasTransform || plainTransformer.hasFitTransform) = true ∧
    plainTransformer.hasFitResample = false ∧
    fitOneStep ([] : List (String × String × Nat)) ("t", StepObj.est plainTransformer) 3 4 =
      .ok (("t", StepObj.est (fitTransformOne plainTransformer 3 4 (paramsFor [] "t")).2),
           (fitTransformOne plainTransformer 3 4 (paramsFor [] "t")).1, 4) :=
  ⟨by decide, by decide,
   (c3_fit_step_effects []).1 "t" plainTransformer 3 4 (by decide) (by decide)⟩

lemma routeFitParams_err_first (keys : List String) (nm : String) (v : V) :
    ∀ (fps1 fps2 : List (String × V)),
      (∀ q ∈ fps1, ∃ a b, splitParamName q.1 = some (a, b) ∧ a ∈ keys) →
      splitParamName nm = none →
      routeFitParams keys (fps1 ++ (nm, v) :: fps2) = .error (.valueErr nm) := by
  intro fps1
  induction fps1 with
  | nil =>
    intro fps2 _ hnm
    simp only [List.nil_append, routeFitParams, hnm]
  | cons q rest ih =>
    intro fps2 hall hnm
    obtain ⟨a, b, hq, ha⟩ := hall q (by simp)
    rcases q with ⟨pn, pv⟩
    simp only [List.cons_append, routeFitParams, hq, ha, if_true, List.append_eq,
      ih fps2 (fun r hr => hall r (by simp [hr])) hnm]

lemma routeFitParams_ok_char (keys : List String) :
    ∀ (fps : List (String × V)),
      (∀ q ∈ fps, ∃ a b, splitParamName q.1 = some (a, b) ∧ a ∈ keys) →
      ∃ routed, routeFitParams keys fps = .ok routed ∧
        ∀ n, paramsFor routed n = fps.filterMap (fun q =>
            match splitParamName q.1 with
            | some ab => if ab.1 = n then some (ab.2, q.2) else none
            | none => none) := by
  intro fps
  induction fps with
  | nil => exact fun _ => ⟨[], rfl, fun n => rfl⟩
  | cons q rest ih =>
    intro hall
    obtain ⟨a, b, hq, ha⟩ := hall q (by simp)
    obtain ⟨routed, hr, hp⟩ := ih (fun r hr => hall r (by simp [hr]))
    rcases q with ⟨pn, pv⟩
    refine ⟨(a, b, pv) :: routed, ?_, ?_⟩
    · simp only [routeFitParams, hq, ha, if_true, hr]
    · intro n
      simp only [paramsFor, List.filterMap_cons, hq] at hp ⊢
      by_cases han : a = n <;> simp [han, hp n]

/-- C7: during a fit-style call, a fit-time keyword argument whose name has
no `__` separator makes `_fit` fail with a ValueError naming that argument —
provided the arguments before it are well-formed and routable — so no step
is fitted; and when every argument is well-formed with a known step prefix,
routing succeeds and files each parameter under the step named by the
prefix, keyed by the remainder after the first `__`. -/
theorem c7_fit_params_routing {X Y P V μ : Type} (p : Pipeline X Y P V μ)
    (x : X) (y : Y) (fps fps1 fps2 : List (String × V)) (nm : String) (v : V) :
    (validateSteps p.steps = none →
      fps = fps1 ++ (nm, v) :: fps2 →
      (∀ q ∈ fps1, ∃ a b, splitParamName q.1 = some (a, b) ∧ a ∈ paramKeys p.steps) →
      splitParamName nm = none →
      pipeFitRaw p x y fps = .error (.valueErr nm)) ∧
    ((∀ q ∈ fps, ∃ a b, splitParamName q.1 = some (a, b) ∧ a ∈ paramKeys p.steps) →
      ∃ routed, routeFitParams (paramKeys p.steps) fps = .ok routed ∧
        ∀ n, paramsFor routed n = fps.filterMap (fun q =>
            match splitParamName q.1 with
            | some ab => if ab.1 = n then some (ab.2, q.2) else none
            | none => none)) := by
  constructor
  · intro hval hsplit hpre hnm
    subst hsplit
    simp only [pipeFitRaw, hval,
      routeFitParams_err_first (paramKeys p.steps) nm v fps1 fps2 hpre hnm]
  · exact routeFitParams_ok_char (paramKeys p.steps) fps

/-- Pipeline used by the C7 witness: one transformer and a final predictor. -/
def twoStepPipe : Pipeline Nat Nat Nat Nat Nat :=
  { steps := [("t", .est plainTransformer), ("f", .est finalPredictor)] }

/-- Witness for `c7_fit_params_routing`: a malformed name makes `_fit` fail
with a ValueError, and a well-formed name is routed to its step. -/
theorem c7_witness :
    validateSteps twoStepPipe.steps = none ∧
    splitParamName "weights" = none ∧
    pipeFitRaw twoStepPipe 0 0 [("weights", 3)] = .error (.valueErr "weights") ∧
    (∃ routed, routeFitParams (paramKeys twoStepPipe.steps) [("t__a", 9)] = .ok routed ∧
      ∀ n, paramsFor routed n = [("t__a", (9 : Nat))].filterMap (fun q =>
          match splitParamName q.1 with
          | some ab => if ab.1 = n then some (ab.2, q.2) else none
          | none => none)) := by
  refine ⟨by decide, by decide, ?_, ?_⟩
  · exact (c7_fit_params_routing twoStepPipe 0 0 [("weights", 3)] [] [] "weights" 3).1
      (by decide) rfl (by intro q hq; simp at hq) (by decide)
  · exact (c7_fit_params_routing twoStepPipe 0 0 [("t__a", 9)] [] [] "" 0).2
      (by intro q hq
          simp only [List.mem_singleton] at hq
          subst hq
          exact ⟨"t", "a", by decide, by decide⟩)

lemma getLast?_drop_length_sub_one {α : Type} :
    ∀ (l : List α), l ≠ [] → ∃ a, l.getLast? = some a ∧ l.drop (l.length - 1) = [a] := by
  intro l
  induction l with
  | nil => intro h; exact absurd rfl h
  | cons b t ih =>
    intro _
    cases t with
    | nil => exact ⟨b, rfl, rfl⟩
    | cons c u =>
      obtain ⟨a, ha, hd⟩ := ih (by simp)
      refine ⟨a, ?_, ?_⟩
      · rw [List.getLast?_cons_cons]
        exact ha
      · have hlen : (b :: c :: u).length - 1 = (c :: u).length - 1 + 1 := by
          simp [List.length_cons]
        rw [hlen, List.drop_succ_cons]
        exact hd

/-- After `_fit`, the updated step list has the same length as the original
and keeps the original last entry (only intermediate entries are replaced). -/
lemma pipeFitRaw_last {p : Pipeline X Y P V μ} {x : X} {y : Y}
    {fps : List (String × V)} {w : Pipeline X Y P V μ × X × Y × List (String × V)}
    (h : pipeFitRaw p x y fps = .ok w) :
    w.1.steps.getLast? = p.steps.getLast? ∧ w.1.steps ≠ [] := by
  have hne : p.steps ≠ [] := by
    intro hemp
    rw [pipeFitRaw, hemp] at h
    simp [validateSteps] at h
  obtain ⟨a, ha, hdrop⟩ := getLast?_drop_length_sub_one p.steps hne
  rw [pipeFitRaw] at h
  split at h
  · exact Except.noConfusion h
  · split at h
    · exact Except.noConfusion h
    · split at h
      · exact Except.noConfusion h
      · rw [hdrop] at h
        split at h <;>
          (injection h with h1
           rw [← h1]
           refine ⟨?_, by simp⟩
           simp only [List.getLast?_concat, ha])

/-- C9: when the final step is neither `'passthrough'` (nor `None`) nor
exposes `fit_resample`, `fit_resample` runs `_fit` on the intermediate
steps and then silently returns Python `None`: no exception is raised, no
final-step method is invoked (the last entry stays the user-supplied
object), and the returned pipeline is exactly the `_fit` result. -/
theorem c9_fit_resample_none {X Y P V μ : Type} (p : Pipeline X Y P V μ)
    (x : X) (y : Y) (fps : List (String × V))
    (w : Pipeline X Y P V μ × X × Y × List (String × V))
    (hok : pipeFitRaw p x y fps = .ok w)
    (hpass : (finalEstimator p.steps).isPass = false)
    (hfr : (finalEstimator p.steps).hasAttrFitResample = false) :
    pipeFitResample p x y fps = .ok (w.1, .pyNone) ∧
    w.1.steps.getLast? = p.steps.getLast? := by
  rcases w with ⟨p', xt, yt, f'⟩
  have hlast : p'.steps.getLast? = p.steps.getLast? := (pipeFitRaw_last hok).1
  have hfin : finalEstimator p'.steps = finalEstimator p.steps := by
    unfold finalEstimator
    rw [hlast]
  refine ⟨?_, hlast⟩
  rw [pipeFitResample, hok]
  cases hf : finalEstimator p.steps with
  | passStep =>
    rw [hf] at hpass
    simp [StepObj.isPass] at hpass
  | noneStep =>
    exfalso
    unfold finalEstimator at hf
    split at hf <;> simp_all
  | est e =>
    have hfr2 : e.hasFitResample = false := by
      simpa [StepObj.hasAttrFitResample, hf] using hfr
    dsimp only
    rw [hfin, hf]
    simp only [hfr2, Bool.false_eq_true, if_false]

/-- Fitted version of `twoStepPipe` produced by `_fit` at `(5, 6)`. -/
def twoStepPipeFit : Pipeline Nat Nat Nat Nat Nat :=
  { steps := [("t", .est { plainTransformer with state := 1 }),
              ("f", .est finalPredictor)] }

/-- Witness for `c9_fit_resample_none` at a concrete pipeline whose final
step has `fit` and `predict` but no `fit_resample`. -/
theorem c9_witness :
    pipeFitRaw twoStepPipe 5 6 [] = .ok (twoStepPipeFit, 6, 6, []) ∧
    (finalEstimator twoStepPipe.steps).isPass = false ∧
    (finalEstimator twoStepPipe.steps).hasAttrFitResample = false ∧
    pipeFitResample twoStepPipe 5 6 [] = .ok (twoStepPipeFit, .pyNone) ∧
    twoStepPipeFit.steps.getLast? = twoStepPipe.steps.getLast? := by
  have hok : pipeFitRaw twoStepPipe 5 6 [] = .ok (twoStepPipeFit, 6, 6, []) := rfl
  have h := c9_fit_resample_none twoStepPipe 5 6 [] (twoStepPipeFit, 6, 6, []) hok
    (by decide) (by decide)
  exact ⟨hok, by decide, by decide, h.1, h.2⟩

lemma predictFold_book_some (l : List (Nat × String × StepObj X Y P V μ)) :
    ∀ (x : X) (k0 o0 : List Nat),
      (∀ z ∈ l, ∀ e, z.2.2 = StepObj.est e → e.hasFitResample = true →
        ∀ w, ((e.transformResF e.state w).2.1).isSome = true) →
      ∃ k o : List Nat,
        (l.foldl (fun a t => predictUpd a t.2.2) (x, some k0, some o0)).2 =
          (some k, some o) := by
  induction l with
  | nil => exact fun x k0 o0 _ => ⟨k0, o0, rfl⟩
  | cons z rest ih =>
    intro x k0 o0 hsome
    have hrest := fun r hr => hsome r (List.mem_cons_of_mem z hr)
    simp only [List.foldl_cons]
    cases ht : z.2.2 with
    | noneStep => simp only [predictUpd, ht]; exact ih x k0 o0 hrest
    | passStep => simp only [predictUpd, ht]; exact ih x k0 o0 hrest
    | est e =>
      by_cases hfr : e.hasFitResample = true
      · obtain ⟨k1, hk1⟩ := Option.isSome_iff_exists.mp
          (hsome z (by simp) e ht hfr x)
        simp only [predictUpd, ht, hfr, if_true, hk1]
        exact ih _ k1 _ hrest
      · simp only [predictUpd, ht, hfr, Bool.false_eq_true, if_false]
        exact ih _ k0 o0 hrest

lemma predictFold_book_overwrite (l : List (Nat × String × StepObj X Y P V μ)) :
    ∀ (x : X),
      (∀ z ∈ l, ∀ e, z.2.2 = StepObj.est e → e.hasFitResample = true →
        ∀ w, ((e.transformResF e.state w).2.1).isSome = true) →
      (∃ z ∈ l, z.2.2.hasAttrFitResample = true) →
      ∃ k o : List Nat, ∀ b c,
        (l.foldl (fun a t => predictUpd a t.2.2) (x, b, c)).2 = (some k, some o) := by
  induction l with
  | nil =>
    intro x _ hres
    obtain ⟨z, hz, -⟩ := hres
    exact absurd hz (List.not_mem_nil z)
  | cons z rest ih =>
    intro x hsome hres
    have hrest := fun r hr => hsome r (List.mem_cons_of_mem z hr)
    cases ht : z.2.2 with
    | est e =>
      by_cases hfr : e.hasFitResample = true
      · obtain ⟨k1, hk1⟩ := Option.isSome_iff_exists.mp
          (hsome z (by simp) e ht hfr x)
        obtain ⟨k, o, hko⟩ := predictFold_book_some rest
          (e.transformResF e.state x).1 k1 (e.transformResF e.state x).2.2 hrest
        refine ⟨k, o, fun b c => ?_⟩
        simp only [List.foldl_cons, predictUpd, ht, hfr, if_true, hk1]
        exact hko
      · have hres' : ∃ r ∈ rest, r.2.2.hasAttrFitResample = true := by
          obtain ⟨r, hr, hrfr⟩ := hres
          rcases List.mem_cons.mp hr with hzr | hrr
          · subst hzr
            rw [ht] at hrfr
            simp only [StepObj.hasAttrFitResample] at hrfr
            exact absurd hrfr hfr
          · exact ⟨r, hrr, hrfr⟩
        obtain ⟨k, o, hko⟩ := ih (e.transformXF e.state x) hrest hres'
        refine ⟨k, o, fun b c => ?_⟩
        simp only [List.foldl_cons, predictUpd, ht, hfr, Bool.false_eq_true, if_false]
        exact hko b c
    | noneStep =>
      have hres' : ∃ r ∈ rest, r.2.2.hasAttrFitResample = true := by
        obtain ⟨r, hr, hrfr⟩ := hres
        rcases List.mem_cons.mp hr with hzr | hrr
        · subst hzr; rw [ht] at hrfr; simp [StepObj.hasAttrFitResample] at hrfr
        · exact ⟨r, hrr, hrfr⟩
      obtain ⟨k, o, hko⟩ := ih x hrest hres'
      exact ⟨k, o, fun b c => by
        simp only [List.foldl_cons, predictUpd, ht]
        exact hko b c⟩
    | passStep =>
      have hres' : ∃ r ∈ rest, r.2.2.hasAttrFitResample = true := by
        obtain ⟨r, hr, hrfr⟩ := hres
        rcases List.mem_cons.mp hr with hzr | hrr
        · subst hzr; rw [ht] at hrfr; simp [StepObj.hasAttrFitResample] at hrfr
        · exact ⟨r, hrr, hrfr⟩
      obtain ⟨k, o, hko⟩ := ih x hrest hres'
      exact ⟨k, o, fun b c => by
        simp only [List.foldl_cons, predictUpd, ht]
        exact hko b c⟩

/-- C4: on a predict-style call through a pipeline with a resample step
(whose row-filtering transform reports kept indices), no step is refitted —
the step list of the returned pipeline is the caller's step list unchanged —
the non-final steps' transforms thread the features, the kept-row and
outlier-row indices are recorded as `to_keep_ind`/`outliers` before the
final estimator runs, and the recorded values depend only on the current
call, not on previously stored bookkeeping. -/
theorem c4_predict_no_refit_records {X Y P V μ : Type} (p : Pipeline X Y P V μ)
    (x : X) (ef : Est X Y P V μ)
    (hfin : finalEstimator p.steps = StepObj.est ef)
    (hpr : ef.hasPredict = true) (hpp : ef.hasPredictProba = true)
    (hsome : ∀ z ∈ iterM p.steps false true false, ∀ e, z.2.2 = StepObj.est e →
        e.hasFitResample = true → ∀ w, ((e.transformResF e.state w).2.1).isSome = true)
    (hres : ∃ z ∈ iterM p.steps false true false, z.2.2.hasAttrFitResample = true) :
    ∃ k o : List Nat,
      pipePredict p x =
        .ok ({ p with to_keep_ind := some k, outliers := some o },
             ef.predictF ef.state (predictThread p x).1) ∧
      pipePredictProba p x =
        .ok ({ p with to_keep_ind := some k, outliers := some o },
             ef.predictProbaF ef.state (predictThread p x).1) ∧
      ∀ b c, ((iterM p.steps false true false).foldl (fun a t => predictUpd a t.2.2)
          (x, b, c)).2 = (some k, some o) := by
  obtain ⟨k, o, hall⟩ :=
    predictFold_book_overwrite (iterM p.steps false true false) x hsome hres
  have hbook : (predictThread p x).2 = (some k, some o) := hall p.to_keep_ind p.outliers
  refine ⟨k, o, ?_, ?_, hall⟩
  · rw [pipePredict, hfin]
    simp only [StepObj.hasAttrPredict, hpr, Bool.not_true, Bool.false_eq_true, if_false]
    have h1 : (predictThread p x).2.1 = some k := by rw [hbook]
    have h2 : (predictThread p x).2.2 = some o := by rw [hbook]
    rw [h1, h2]
    simp
  · rw [pipePredictProba, hfin]
    simp only [StepObj.hasAttrPredictProba, hpp, Bool.not_true, Bool.false_eq_true, if_false]
    have h1 : (predictThread p x).2.1 = some k := by rw [hbook]
    have h2 : (predictThread p x).2.2 = some o := by rw [hbook]
    rw [h1, h2]
    simp

/-- Witness for `c4_predict_no_refit_records` at a concrete pipeline with
one resample-capable step. -/
theorem c4_witness :
    (∃ z ∈ iterM bothCapPipe.steps false true false,
        z.2.2.hasAttrFitResample = true) ∧
    ∃ k o : List Nat,
      pipePredict bothCapPipe 5 =
        .ok ({ bothCapPipe with to_keep_ind := some k, outliers := some o },
             finalPredictor.predictF finalPredictor.state (predictThread bothCapPipe 5).1) ∧
      pipePredictProba bothCapPipe 5 =
        .ok ({ bothCapPipe with to_keep_ind := some k, outliers := some o },
             finalPredictor.predictProbaF finalPredictor.state
               (predictThread bothCapPipe 5).1) ∧
      ∀ b c, ((iterM bothCapPipe.steps false true false).foldl
          (fun a t => predictUpd a t.2.2) (5, b, c)).2 = (some k, some o) := by
  constructor
  · exact ⟨(0, "s", StepObj.est bothCapEst),
      show _ ∈ [(0, "s", StepObj.est bothCapEst)] from List.Mem.head _, rfl⟩
  · refine c4_predict_no_refit_records bothCapPipe 5 finalPredictor rfl rfl rfl ?_ ?_
    · intro z hz e he hfr w
      have hz' : z ∈ [(0, "s", StepObj.est bothCapEst)] := hz
      rw [List.mem_singleton] at hz'
      subst hz'
      injection he with h
      subst h
      rfl
    · exact ⟨(0, "s", StepObj.est bothCapEst),
        show _ ∈ [(0, "s", StepObj.est bothCapEst)] from List.Mem.head _, rfl⟩

lemma predictFold_book_stale (l : List (Nat × String × StepObj X Y P V μ)) :
    ∀ (x : X) (b c : Option (List Nat)),
      (∀ z ∈ l, ∀ e, z.2.2 = StepObj.est e → e.hasFitResample = true →
        ∀ w, (e.transformResF e.state w).2.1 = none) →
      (l.foldl (fun a t => predictUpd a t.2.2) (x, b, c)).2 = (b, c) := by
  induction l with
  | nil => intro x b c _; rfl
  | cons z rest ih =>
    intro x b c hnone
    have hrest := fun r hr => hnone r (List.mem_cons_of_mem z hr)
    simp only [List.foldl_cons]
    cases ht : z.2.2 with
    | noneStep => simp only [predictUpd, ht]; exact ih x b c hrest
    | passStep => simp only [predictUpd, ht]; exact ih x b c hrest
    | est e =>
      by_cases hfr : e.hasFitResample = true
      · simp only [predictUpd, ht, hfr, if_true, hnone z (by simp) e ht hfr x]
        exact ih _ b c hrest
      · simp only [predictUpd, ht, hfr, Bool.false_eq_true, if_false]
        exact ih _ b c hrest

/-- Extract the recorded kept indices of a predict result. -/
def predKeepOf : Except PipeErr (Pipeline Nat Nat Nat Nat Nat × Nat) → Option (List Nat)
  | .ok (q, _) => q.to_keep_ind
  | .error _ => none

/-- Extract the recorded outlier indices of a predict result. -/
def predOutlOf : Except PipeErr (Pipeline Nat Nat Nat Nat Nat × Nat) → Option (List Nat)
  | .ok (q, _) => q.outliers
  | .error _ => none

/-- Pipeline with stale bookkeeping and a resample step whose predict-time
transform reports `None` kept indices. -/
def stalePipe : Pipeline Nat Nat Nat Nat Nat :=
  { steps := [("r", .est resNoneEst), ("f", .est finalPredictor)],
    to_keep_ind := some [7], outliers := some [8] }

/-- Counterexample to C5: a successful predict call through a
resample-capable step does not overwrite the bookkeeping when the step's
transform returns `None` kept indices — the values stored before the call
([7]/[8], which the current call never produced) survive it. -/
theorem c5_stale_bookkeeping_cex :
    stalePipe.to_keep_ind = some [7] ∧ stalePipe.outliers = some [8] ∧
    exOk (pipePredict stalePipe 0) = true ∧
    predKeepOf (pipePredict stalePipe 0) = some [7] ∧
    predOutlOf (pipePredict stalePipe 0) = some [8] :=
  ⟨rfl, rfl, rfl, rfl, rfl⟩

/-- C5 (amended): during a predict-style call a resample-capable step
overwrites the recorded bookkeeping exactly when its transform returns
non-`None` kept indices; when every resample step of the call returns
`None`, the previously stored values persist and the call returns the
pipeline unchanged. -/
theorem c5_bookkeeping_conditional_overwrite {X Y P V μ : Type} :
    (∀ (e : Est X Y P V μ), e.hasFitResample = true →
      ∀ (z : X × Option (List Nat) × Option (List Nat)),
        predictUpd z (StepObj.est e) =
          ((e.transformResF e.state z.1).1,
           match (e.transformResF e.state z.1).2.1 with
           | some k => (some k, some (e.transformResF e.state z.1).2.2)
           | none => z.2)) ∧
    (∀ (p : Pipeline X Y P V μ) (x : X) (ef : Est X Y P V μ),
      finalEstimator p.steps = StepObj.est ef → ef.hasPredict = true →
      (∀ z ∈ iterM p.steps false true false, ∀ e, z.2.2 = StepObj.est e →
        e.hasFitResample = true → ∀ w, (e.transformResF e.state w).2.1 = none) →
      pipePredict p x = .ok (p, ef.predictF ef.state (predictThread p x).1)) := by
  constructor
  · intro e hres z
    simp only [predictUpd, hres, if_true]
    cases h : (e.transformResF e.state z.1).2.1 <;> simp [h]
  · intro p x ef hfin hpr hnone
    have hbook : (predictThread p x).2 = (p.to_keep_ind, p.outliers) :=
      predictFold_book_stale (iterM p.steps false true false) x
        p.to_keep_ind p.outliers hnone
    rw [pipePredict, hfin]
    simp only [StepObj.hasAttrPredict, hpr, Bool.not_true, Bool.false_eq_true, if_false]
    have h1 : (predictThread p x).2.1 = p.to_keep_ind := by rw [hbook]
    have h2 : (predictThread p x).2.2 = p.outliers := by rw [hbook]
    rw [h1, h2]
    simp

/-- Witness for `c5_bookkeeping_conditional_overwrite` at the stale
pipeline: the call returns the pipeline unchanged, keeping the old values. -/
theorem c5_witness :
    finalEstimator stalePipe.steps = StepObj.est finalPredictor ∧
    finalPredictor.hasPredict = true ∧
    pipePredict stalePipe 0 =
      .ok (stalePipe, finalPredictor.predictF finalPredictor.state
        (predictThread stalePipe 0).1) := by
  refine ⟨rfl, by decide, ?_⟩
  refine c5_bookkeeping_conditional_overwrite.2 stalePipe 0 finalPredictor rfl rfl ?_
  intro z hz e he hfr w
  have hz' : z ∈ [(0, "r", StepObj.est resNoneEst)] := hz
  rw [List.mem_singleton] at hz'
  subst hz'
  injection he with h
  subst h
  rfl

lemma finalEstimator_ne_none (steps : List (String × StepObj X Y P V μ)) :
    finalEstimator steps ≠ StepObj.noneStep := by
  unfold finalEstimator
  split
  · exact fun hcon => StepObj.noConfusion hcon
  · rename_i hfun heq
    exact hfun
  · exact fun hcon => StepObj.noConfusion hcon

lemma validateSteps_err_no_attr {steps : List (String × StepObj X Y P V μ)}
    {er : PipeErr} (h : validateSteps steps = some er) :
    ∀ m, er ≠ PipeErr.attrErr m := by
  intro m hm
  subst hm
  unfold validateSteps at h
  split at h
  · exact PipeErr.noConfusion (Option.some_injective _ h)
  · split at h
    · exact PipeErr.noConfusion (Option.some_injective _ h)
    · split at h
      · rename_i e' hfi
        obtain ⟨t, -, hte⟩ := firstInterErr_mem hfi
        obtain ⟨mm, hmm⟩ := interStepErr_typeErr hte
        rw [hmm] at h
        exact PipeErr.noConfusion (Option.some_injective _ h)
      · split at h
        · rename_i s hl
          obtain ⟨mm, hmm⟩ := finalStepErr_typeErr h
          exact PipeErr.noConfusion hmm
        · exact PipeErr.noConfusion (Option.some_injective _ h)

lemma routeFitParams_err_no_attr (keys : List String) :
    ∀ (fps : List (String × V)) (er : PipeErr),
      routeFitParams keys fps = .error er → ∀ m, er ≠ PipeErr.attrErr m := by
  intro fps
  induction fps with
  | nil => intro er h; exact Except.noConfusion h
  | cons q rest ih =>
    intro er h m hm
    subst hm
    rcases q with ⟨pn, pv⟩
    simp only [routeFitParams] at h
    cases hs : splitParamName pn with
    | none =>
      rw [hs] at h
      injection h with h1
      exact PipeErr.noConfusion h1
    | some ab =>
      obtain ⟨a, b⟩ := ab
      rw [hs] at h
      dsimp only at h
      by_cases hk : a ∈ keys
      · rw [if_pos hk] at h
        cases hr : routeFitParams keys rest with
        | ok l => rw [hr] at h; exact Except.noConfusion h
        | error e2 =>
          rw [hr] at h
          injection h with h1
          rw [h1] at hr
          exact ih _ hr m rfl
      · rw [if_neg hk] at h
        injection h with h1
        exact PipeErr.noConfusion h1

lemma fitOneStep_err {routed : List (String × String × V)}
    {s : String × StepObj X Y P V μ} {x : X} {y : Y} {er : PipeErr}
    (h : fitOneStep routed s x y = .error er) : er = PipeErr.internalErr := by
  rcases s with ⟨nm, t⟩
  cases t with
  | noneStep => exact Except.noConfusion h
  | passStep => exact Except.noConfusion h
  | est e =>
    simp only [fitOneStep] at h
    split at h
    · exact Except.noConfusion h
    · split at h
      · exact Except.noConfusion h
      · injection h with h1
        exact h1.symm

lemma fitInterSteps_err {routed : List (String × String × V)} :
    ∀ (l : List (String × StepObj X Y P V μ)) (x : X) (y : Y) (er : PipeErr),
      fitInterSteps routed l x y = .error er → er = PipeErr.internalErr := by
  intro l
  induction l with
  | nil => intro x y er h; exact Except.noConfusion h
  | cons s rest ih =>
    intro x y er h
    simp only [fitInterSteps] at h
    split at h
    · rename_i e1 h1
      injection h with h2
      rw [← h2]
      exact fitOneStep_err h1
    · split at h
      · rename_i h2
        injection h with h3
        rw [← h3]
        exact ih _ _ _ h2
      · exact Except.noConfusion h

lemma pipeFitRaw_err_no_attr {p : Pipeline X Y P V μ} {x : X} {y : Y}
    {fps : List (String × V)} {er : PipeErr}
    (h : pipeFitRaw p x y fps = .error er) : ∀ m, er ≠ PipeErr.attrErr m := by
  intro m hm
  subst hm
  rw [pipeFitRaw] at h
  split at h
  · rename_i e1 h1
    injection h with h2
    rw [h2] at h1
    exact validateSteps_err_no_attr h1 m rfl
  · split at h
    · rename_i e1 h1
      injection h with h2
      rw [h2] at h1
      exact routeFitParams_err_no_attr _ _ _ h1 m rfl
    · split at h
      · rename_i e1 h1
        injection h with h2
        rw [h2] at h1
        exact PipeErr.noConfusion (fitInterSteps_err _ _ _ _ h1)
      · split at h <;> exact Except.noConfusion h

/-- Counterexample to C6: `fit_resample` is a plain method of the pipeline
class, so it is exposed (callable, and here even completing successfully)
although the final step does not support `fit_resample` — exposure is not
equivalent to final-step capability for every method. -/
theorem c6_exposure_cex :
    exposes twoStepPipe Meth.mFitResample = true ∧
    finalSupports twoStepPipe Meth.mFitResample = false ∧
    exOk (pipeFitResample twoStepPipe 5 6 []) = true :=
  ⟨rfl, by decide, by rfl⟩

/-- C6 (amended): only `fit_predict`, `predict`, `predict_proba` and
`transform` are exposure-gated on the final step — the first three exactly
by the final step's capability, `transform` also allowing a
`'passthrough'`/`None` final — while `fit`, `fit_transform` and
`fit_resample` are plain methods, always exposed; a non-exposed method
fails with an AttributeError, and `fit_resample` never raises one. -/
theorem c6_exposure_rules {X Y P V μ : Type} (p : Pipeline X Y P V μ) :
    exposes p Meth.mFit = true ∧
    exposes p Meth.mFitTransform = true ∧
    exposes p Meth.mFitResample = true ∧
    exposes p Meth.mFitPredict = finalSupports p Meth.mFitPredict ∧
    exposes p Meth.mPredict = finalSupports p Meth.mPredict ∧
    exposes p Meth.mPredictProba = finalSupports p Meth.mPredictProba ∧
    exposes p Meth.mTransform =
      ((finalEstimator p.steps).isPass || finalSupports p Meth.mTransform) ∧
    (exposes p Meth.mPredict = false →
      ∀ x, pipePredict p x = .error (.attrErr "predict")) ∧
    (exposes p Meth.mPredictProba = false →
      ∀ x, pipePredictProba p x = .error (.attrErr "predict_proba")) ∧
    (exposes p Meth.mFitPredict = false →
      ∀ x y fps, pipeFitPredict p x y fps = .error (.attrErr "fit_predict")) ∧
    (exposes p Meth.mTransform = false →
      ∀ x y, pipeTransform p x y = .error (.attrErr "transform")) ∧
    (∀ x y fps m, pipeFitResample p x y fps ≠ .error (.attrErr m)) := by
  refine ⟨rfl, rfl, rfl, rfl, rfl, rfl, ?_, ?_, ?_, ?_, ?_, ?_⟩
  · cases hf : finalEstimator p.steps with
    | noneStep => exact absurd hf (finalEstimator_ne_none p.steps)
    | passStep =>
      simp [exposes, transformExposed, finalSupports, StepObj.isPass,
        StepObj.hasAttrTransform, hf]
    | est e =>
      simp [exposes, transformExposed, finalSupports, StepObj.isPass,
        StepObj.hasAttrTransform, hf]
  · intro hexp x
    simp only [exposes] at hexp
    simp [pipePredict, hexp]
  · intro hexp x
    simp only [exposes] at hexp
    simp [pipePredictProba, hexp]
  · intro hexp x y fps
    simp only [exposes] at hexp
    simp [pipeFitPredict, hexp]
  · intro hexp x y
    simp only [exposes] at hexp
    simp [pipeTransform, hexp]
  · intro x y fps m hcontra
    rw [pipeFitResample] at hcontra
    split at hcontra
    · rename_i e1 h1
      injection hcontra with h2
      rw [h2] at h1
      exact pipeFitRaw_err_no_attr h1 m rfl
    · split at hcontra
      · exact Except.noConfusion hcontra
      · split at hcontra <;> exact Except.noConfusion hcontra
      · injection hcontra with h2
        exact PipeErr.noConfusion h2

/-- Pipeline ending in a `'passthrough'` final step. -/
def passFinalPipe : Pipeline Nat Nat Nat Nat Nat :=
  { steps := [("t", .est plainTransformer), ("p", .passStep)] }

/-- Witness for `c6_exposure_rules`: a pipeline with a `'passthrough'` final
step does not expose `predict`, and calling it raises an AttributeError. -/
theorem c6_witness :
    exposes passFinalPipe Meth.mPredict = false ∧
    pipePredict passFinalPipe 3 = .error (.attrErr "predict") :=
  ⟨by decide, (c6_exposure_rules passFinalPipe).2.2.2.2.2.2.2.1 (by decide) 3⟩

lemma enumFrom_filter_map_snd {α : Type} (c : α → Bool) :
    ∀ (n : Nat) (l : List α),
      ((List.enumFrom n l).filter fun z => c z.2).map Prod.snd = l.filter c := by
  intro n l
  induction l generalizing n with
  | nil => rfl
  | cons a t ih =>
    simp only [List.enumFrom]
    by_cases hc : c a = true
    · simp only [List.filter_cons, hc, if_true, List.map_cons, ih]
    · simp only [List.filter_cons, hc, Bool.false_eq_true, if_false, ih]

/-- C10: the iteration behind `_transform` drops exactly the steps exposing
`fit_resample` (besides the passthrough filtering), so resample-capable
steps contribute nothing to the transform output, and `_transform` is the
fold of the two-argument `transform(X, y)` over the remaining steps, final
step included. -/
theorem c10_transform_filters_resample {X Y P V μ : Type}
    (p : Pipeline X Y P V μ) (x : X) (y : Y) :
    (∀ z, z ∈ iterM p.steps true true true ↔
        (z ∈ iterBase p.steps true true ∧ z.2.2.hasAttrFitResample = false)) ∧
    (iterM p.steps true true true).map Prod.snd =
      p.steps.filter (fun s => !s.2.hasAttrFitResample && keepEntry true s.2) ∧
    pipeTransformRun p x y =
      (p.steps.filter (fun s => !s.2.hasAttrFitResample && keepEntry true s.2)).foldl
        (fun a s => stepXY s.2 a) (x, y) := by
  have hmap : (iterM p.steps true true true).map Prod.snd =
      p.steps.filter (fun s => !s.2.hasAttrFitResample && keepEntry true s.2) := by
    simp only [iterM, if_true, iterBase, List.take_length, List.filter_filter]
    rw [List.enum_eq_enumFrom]
    exact enumFrom_filter_map_snd
      (fun s => !s.2.hasAttrFitResample && keepEntry true s.2) 0 p.steps
  refine ⟨?_, hmap, ?_⟩
  · intro z
    simp only [iterM, if_true, List.mem_filter, Bool.not_eq_eq_eq_not, Bool.not_true]
  · rw [pipeTransformRun, ← hmap]
    exact (List.foldl_map Prod.snd
      (fun (a : X × Y) (s : String × StepObj X Y P V μ) => stepXY s.2 a)
      (iterM p.steps true true true) (x, y)).symm

lemma validated_inter_shape {steps : List (String × StepObj X Y P V μ)}
    (hval : validateSteps steps = none) :
    ∀ t ∈ steps.dropLast.map Prod.snd, interStepErr t = none := by
  intro t ht
  unfold validateSteps at hval
  split at hval
  · exact Option.noConfusion hval
  · split at hval
    · exact Option.noConfusion hval
    · cases hf : firstInterErr (steps.dropLast.map Prod.snd) with
      | some e =>
        simp only [hf] at hval
        exact Option.noConfusion hval
      | none => exact (firstInterErr_eq_none_iff _).mp hf t ht

/-- Under validated shapes and no resample capability, the `_fit` loop of
mldsutils computes exactly the baseline fit loop, with `y` untouched. -/
lemma fitInter_eq_baseline (routed : List (String × String × V)) :
    ∀ (l : List (String × StepObj X Y P V μ)) (x : X) (y : Y),
      (∀ s ∈ l, s.2.hasAttrFitResample = false) →
      (∀ t ∈ l.map Prod.snd, interStepErr t = none) →
      fitInterSteps routed l x y =
        .ok ((baselineFitInter routed l x y).1, (baselineFitInter routed l x y).2, y) := by
  intro l
  induction l with
  | nil => intro x y _ _; rfl
  | cons s rest ih =>
    intro x y h1 h2
    rcases s with ⟨nm, t⟩
    have hrest1 : ∀ r ∈ rest, r.2.hasAttrFitResample = false :=
      fun r hr => h1 r (List.mem_cons_of_mem _ hr)
    have hrest2 : ∀ u ∈ rest.map Prod.snd, interStepErr u = none :=
      fun u hu => h2 u (List.mem_cons_of_mem _ hu)
    cases t with
    | noneStep =>
      simp only [fitInterSteps, fitOneStep, baselineFitInter, ih x y hrest1 hrest2]
    | passStep =>
      simp only [fitInterSteps, fitOneStep, baselineFitInter, ih x y hrest1 hrest2]
    | est e =>
      have hfr : e.hasFitResample = false := by
        have hh := h1 (nm, StepObj.est e) (by simp)
        simpa [StepObj.hasAttrFitResample] using hh
      have hshape := h2 (StepObj.est e) (by simp)
      rw [interStepErr_eq_none_iff] at hshape
      simp only [interShapeOk, Bool.and_eq_true] at hshape
      have htr : e.hasTransform = true := by
        have hb := hshape.1.2
        rw [hfr] at hb
        simpa using hb
      have hcond : ((e.hasTransform || e.hasFitTransform) && !e.hasFitResample) = true := by
        rw [htr, hfr]
        rfl
      simp only [fitInterSteps, fitOneStep, hcond, if_true, baselineFitInter,
        ih (fitTransformOne e x y (paramsFor routed nm)).1 y hrest1 hrest2]

lemma predictFold_no_res (l : List (Nat × String × StepObj X Y P V μ)) :
    ∀ (x : X) (b c : Option (List Nat)),
      (∀ z ∈ l, z.2.2.hasAttrFitResample = false) →
      l.foldl (fun a t => predictUpd a t.2.2) (x, b, c) =
        (l.foldl (fun a z =>
          match z.2.2 with
          | StepObj.est e => e.transformXF e.state a
          | _ => a) x, b, c) := by
  induction l with
  | nil => intro x b c _; rfl
  | cons z rest ih =>
    intro x b c hno
    have hrest := fun r hr => hno r (List.mem_cons_of_mem z hr)
    simp only [List.foldl_cons]
    cases ht : z.2.2 with
    | noneStep => simp only [predictUpd, ht]; exact ih x b c hrest
    | passStep => simp only [predictUpd, ht]; exact ih x b c hrest
    | est e =>
      have hfr : e.hasFitResample = false := by
        have hh := hno z (by simp)
        rw [ht] at hh
        simpa [StepObj.hasAttrFitResample] using hh
      simp only [predictUpd, ht, hfr, Bool.false_eq_true, if_false]
      exact ih _ b c hrest

lemma mem_dropLast_of_mem_iterBase_false {z : Nat × String × StepObj X Y P V μ}
    {steps : List (String × StepObj X Y P V μ)} {fp : Bool}
    (h : z ∈ iterBase steps false fp) : z.2 ∈ steps.dropLast := by
  have h1 := List.mem_of_mem_filter h
  have h2 := List.mem_map_of_mem Prod.snd h1
  rw [List.enum_map_snd] at h2
  rw [List.dropLast_eq_take]
  exact h2

lemma mem_steps_of_mem_iterBase {z : Nat × String × StepObj X Y P V μ}
    {steps : List (String × StepObj X Y P V μ)} {wf fp : Bool}
    (h : z ∈ iterBase steps wf fp) : z.2 ∈ steps := by
  have h1 := List.mem_of_mem_filter h
  have h2 := List.mem_map_of_mem Prod.snd h1
  rw [List.enum_map_snd] at h2
  exact List.take_subset _ _ h2

/-- C2 (amended): on a pipeline whose intermediate steps all lack `fit_resample`,
`fit` agrees with the baseline non-resampling pipeline fit (features
threaded through each step's fit-transform in order, labels untouched,
final estimator fitted on the transformed data), `_fit` leaves `y`
unchanged, `predict` agrees with the baseline predict, and — when the final
step also lacks `fit_resample` — `transform` agrees with the baseline
transform. -/
theorem c2_baseline_equivalence {X Y P V μ : Type} (p : Pipeline X Y P V μ)
    (x xq : X) (y yq : Y) (fps : List (String × V))
    (h1 : ∀ s ∈ p.steps.dropLast, s.2.hasAttrFitResample = false) :
    pipeFit p x y fps = baselineFit p x y fps ∧
    (∀ w, pipeFitRaw p x y fps = .ok w → w.2.2.1 = y) ∧
    pipePredict p xq = baselinePredict p xq ∧
    ((∀ s ∈ p.steps, s.2.hasAttrFitResample = false) →
      pipeTransform p xq yq = baselineTransform p xq yq) := by
  refine ⟨?_, ?_, ?_, ?_⟩
  · cases hval : validateSteps p.steps with
    | some e => rw [pipeFit, pipeFitRaw, baselineFit, hval]
    | none =>
      cases hroute : routeFitParams (paramKeys p.steps) fps with
      | error e => rw [pipeFit, pipeFitRaw, baselineFit, hval]; simp only [hroute]
      | ok routed =>
        have hinter := fitInter_eq_baseline routed p.steps.dropLast x y h1
          (validated_inter_shape hval)
        rw [pipeFit, pipeFitRaw, baselineFit, hval]
        simp only [hroute, hinter]
        cases hfe : finalEstimator ((baselineFitInter routed p.steps.dropLast x y).1 ++
            p.steps.drop (p.steps.length - 1)) with
        | passStep => simp only [hfe]
        | noneStep => simp only [hfe]
        | est e => simp only [hfe]
  · intro w hw
    cases hval : validateSteps p.steps with
    | some e => rw [pipeFitRaw, hval] at hw; exact Except.noConfusion hw
    | none =>
      cases hroute : routeFitParams (paramKeys p.steps) fps with
      | error e =>
        rw [pipeFitRaw, hval] at hw
        simp only [hroute] at hw
        exact Except.noConfusion hw
      | ok routed =>
        have hinter := fitInter_eq_baseline routed p.steps.dropLast x y h1
          (validated_inter_shape hval)
        rw [pipeFitRaw, hval] at hw
        simp only [hroute, hinter] at hw
        cases hfe : finalEstimator ((baselineFitInter routed p.steps.dropLast x y).1 ++
            p.steps.drop (p.steps.length - 1)) with
        | passStep =>
          simp only [hfe] at hw
          injection hw with h2
          rw [← h2]
        | noneStep =>
          simp only [hfe] at hw
          injection hw with h2
          rw [← h2]
        | est e =>
          simp only [hfe] at hw
          injection hw with h2
          rw [← h2]
  · have hz2 : ∀ z ∈ iterM p.steps false true false,
        z.2.2.hasAttrFitResample = false := by
      intro z hz
      exact h1 z.2 (mem_dropLast_of_mem_iterBase_false hz)
    have hthread : predictThread p xq =
        ((iterM p.steps false true false).foldl (fun a z =>
          match z.2.2 with
          | StepObj.est e => e.transformXF e.state a
          | _ => a) xq, p.to_keep_ind, p.outliers) :=
      predictFold_no_res (iterM p.steps false true false) xq
        p.to_keep_ind p.outliers hz2
    rw [pipePredict, baselinePredict]
    by_cases hexp : (finalEstimator p.steps).hasAttrPredict = true
    · simp only [hexp, Bool.not_true, Bool.false_eq_true, if_false]
      cases hfe : finalEstimator p.steps with
      | passStep =>
        rw [hfe] at hexp
        try simp [StepObj.hasAttrPredict] at hexp
      | noneStep => exact absurd hfe (finalEstimator_ne_none p.steps)
      | est e =>
        have h1t : (predictThread p xq).1 =
            (iterM p.steps false true false).foldl (fun a z =>
              match z.2.2 with
              | StepObj.est e => e.transformXF e.state a
              | _ => a) xq := by rw [hthread]
        have h2t : (predictThread p xq).2.1 = p.to_keep_ind := by rw [hthread]
        have h3t : (predictThread p xq).2.2 = p.outliers := by rw [hthread]
        simp only [h1t, h2t, h3t]
        by_cases hp : e.hasPredict = true <;> simp only [hp, if_true,
          Bool.false_eq_true, if_false] <;> try rfl
    · have hexp' : (finalEstimator p.steps).hasAttrPredict = false :=
        Bool.not_eq_true _ ▸ (Bool.eq_false_iff.mpr hexp)
      simp only [hexp', Bool.not_false, if_true]
  · intro hall
    have hfilter : (iterBase p.steps true true).filter
        (fun z => !z.2.2.hasAttrFitResample) = iterBase p.steps true true :=
      List.filter_eq_self.mpr (fun z hz => by
        rw [hall z.2 (mem_steps_of_mem_iterBase hz)]
        rfl)
    rw [pipeTransform, baselineTransform]
    by_cases hexp : transformExposed p = true
    · simp only [hexp, if_true, pipeTransformRun, iterM, hfilter]
    · have hexp' : transformExposed p = false :=
        Bool.eq_false_iff.mpr hexp
      simp only [hexp', Bool.false_eq_true, if_false]

/-- Pipeline whose intermediate steps are all transform-capable but whose
final step exposes both `transform` and `fit_resample`. -/
def resFinalPipe : Pipeline Nat Nat Nat Nat Nat :=
  { steps := [("t", .est plainTransformer), ("f", .est bothCapEst)] }

/-- Counterexample to C2 as frozen (which constrains only the intermediate
steps): with a transform-only intermediate and a final step exposing both
`transform` and `fit_resample`, the pipeline validates and exposes
`transform`, yet `transform` disagrees with the baseline — `_transform`
iterates with `filter_resample=True` and so drops the resample-capable
final step, while the baseline applies it. -/
theorem c2_transform_final_resample_cex :
    (∀ s ∈ resFinalPipe.steps.dropLast, s.2.hasAttrFitResample = false) ∧
    bothCapEst.hasTransform = true ∧ bothCapEst.hasFitResample = true ∧
    validateSteps resFinalPipe.steps = none ∧
    transformExposed resFinalPipe = true ∧
    pipeTransform resFinalPipe 0 0 = .ok (1, 0) ∧
    baselineTransform resFinalPipe 0 0 = .ok (2, 0) :=
  ⟨by decide, by decide, by decide, by decide, by decide, by rfl, by rfl⟩

/-- Witness for `c2_baseline_equivalence` at a concrete transformer-plus-
predictor pipeline. -/
theorem c2_witness :
    (∀ s ∈ twoStepPipe.steps.dropLast, s.2.hasAttrFitResample = false) ∧
    pipeFit twoStepPipe 5 6 [] = baselineFit twoStepPipe 5 6 [] ∧
    pipePredict twoStepPipe 7 = baselinePredict twoStepPipe 7 ∧
    pipeTransform twoStepPipe 7 8 = baselineTransform twoStepPipe 7 8 := by
  have h := c2_baseline_equivalence twoStepPipe 5 7 6 8 [] (by decide)
  exact ⟨by decide, h.1, h.2.2.1, h.2.2.2 (by decide)⟩

end MLDS
